import Mathlib

/-!
Verification of `xpl/fitter.py` (`RegionFitModelIface`).

The Python class coordinates per-peak lmfit models for one spectrum region:
it keeps a dict `_single_models` from peak prefix to model, a shared lmfit
`Parameters` object `_params`, and the `Region` it was built for.  We embed
the class as a pure state-passing development:

* Python dicts become association lists with unique keys (`dictGet`,
  `dictSet`, `dictPopAll`, `dictUpdate` mirror lookup, assignment, `pop`
  and `Parameters.__iadd__`/update);
* raised exceptions become an explicit `Err` value returned next to the
  new state; code raising after earlier mutations returns the mutated
  state together with the error, matching Python semantics;
* machine floats become `Rat`; the IEEE infinities that lmfit uses as
  default parameter bounds are represented by `none` in `Option Rat`
  fields (doubling or leaving an infinite bound keeps it infinite, which
  `Option.map` reproduces);
* the external lmfit library surface that the class touches (model
  objects, param hints, `make_params`, `Parameter.set`, composite model
  evaluation) is embedded structurally; the PseudoVoigt line-shape
  function itself and the least-squares optimizer are kept abstract as
  function parameters (`pv`, `opt`), exactly the parts the spec declares
  delegated and out of scope;
* Python object identity of regions (`peak.region is self._region`) is
  modelled by a numeric region id.
-/

/-- Exceptions raised by the Python code paths under study. -/
inductive Err where
  | valueError
  | attributeError
  | notImplementedError
  | typeError
  | keyError
deriving DecidableEq, Repr

/-- One lmfit `Parameter`: `value`, bounds, `vary` flag and constraint
expression.  `none` for `min`/`max` stands for the infinite default bound,
`none` for `value` for lmfit's unset (`-inf`) initial value. -/
structure Param where
  value : Option Rat := none
  min : Option Rat := none
  max : Option Rat := none
  vary : Bool := true
  expr : Option String := none
deriving DecidableEq, Repr

/-- One lmfit param hint entry, as stored by `Model.set_param_hint`: every
field is optional, absent fields fall back to defaults at `make_params`
time.  The same record doubles as the keyword-argument bundle of a
`set_param_hint` call, where `some` marks a supplied keyword. -/
structure Hint where
  value : Option Rat := none
  min : Option Rat := none
  max : Option Rat := none
  vary : Option Bool := none
  expr : Option String := none
deriving DecidableEq, Repr

/-- A peak as seen by `fitter.py`: the only attributes the fitter reads are
`region` (modelled by the owning region's id), `ID`, `model_name` and
`prefix` (field `pfx` here). -/
structure Peak where
  ID : Nat
  regionId : Nat
  model_name : String
  pfx : String
deriving DecidableEq, Repr

/-- The region data `fitter.py` reads: identity, energy axis, measured
counts, background, and the peak list. -/
structure Region where
  id : Nat
  energy : List Rat
  cps : List Rat
  background : List Rat
  peaks : List Peak
deriving DecidableEq, Repr

/-- Key lookup in a Python dict modelled as an association list. -/
def dictGet {α : Type} : List (String × α) → String → Option α
  | [], _ => none
  | kv :: rest, k => if kv.1 = k then some kv.2 else dictGet rest k

/-- Key membership (`k in d`) in a Python dict. -/
def dictHasKey {α : Type} (d : List (String × α)) (k : String) : Prop :=
  (dictGet d k).isSome = true

instance {α : Type} (d : List (String × α)) (k : String) :
    Decidable (dictHasKey d k) := by
  unfold dictHasKey
  infer_instance

/-- Dict assignment `d[k] = v`: replace in place if the key exists,
append otherwise. -/
def dictSet {α : Type} : List (String × α) → String → α → List (String × α)
  | [], k, v => [(k, v)]
  | kv :: rest, k, v => if kv.1 = k then (k, v) :: rest else kv :: dictSet rest k v

/-- Dict removal `d.pop(k)`.  Dict keys are unique, so removing every
occurrence of the key from the association list models `pop`. -/
def dictPopAll {α : Type} (d : List (String × α)) (k : String) : List (String × α) :=
  d.filter (fun kv => !decide (kv.1 = k))

/-- `Parameters.__iadd__` / dict update: every entry of `new` is assigned
into `d` in order, overwriting existing keys. -/
def dictUpdate {α : Type} (d new : List (String × α)) : List (String × α) :=
  new.foldl (fun acc kv => dictSet acc kv.1 kv.2) d

/-- Python substring test `sub in hay` on strings. -/
def strContains (hay sub : String) : Bool :=
  decide (sub.data <:+: hay.data)

/-- Python slice `s[-n:]` (the last `n` characters, or all of `s` when it
is shorter). -/
def strTakeRight (s : String) (n : Nat) : String :=
  String.mk (s.data.drop (s.data.length - n))

/-- Python slice `s[:-n]` (everything but the last `n` characters). -/
def strDropRight (s : String) (n : Nat) : String :=
  String.mk (s.data.take (s.data.length - n))

/-- Merge a `set_param_hint` keyword bundle into an existing hint: supplied
keywords override the stored entry, absent ones keep it. -/
def hintMerge (h u : Hint) : Hint :=
  { value := match u.value with | some v => some v | none => h.value
    min := match u.min with | some v => some v | none => h.min
    max := match u.max with | some v => some v | none => h.max
    vary := match u.vary with | some b => some b | none => h.vary
    expr := match u.expr with | some e => some e | none => h.expr }

/-- A single lmfit model object as used here: a `PseudoVoigtModel` with a
prefix and its param-hint dict.  The line shape itself is external. -/
structure SModel where
  pfx : String
  hints : List (String × Hint)
deriving DecidableEq, Repr

/-- `Model.set_param_hint(name, **u)`: update the hint dict entry for
`name`, creating it when absent. -/
def setParamHint (m : SModel) (name : String) (u : Hint) : SModel :=
  let merged := hintMerge ((dictGet m.hints name).getD {}) u
  { m with hints := dictSet m.hints name merged }

/-- The `fwhm` derived-parameter expression lmfit installs for a
PseudoVoigt model (modelled from lmfit; its text is never interpreted by
the code under study). -/
def fwhmExprOf (pfx : String) : String :=
  "2.0000000*" ++ pfx ++ "sigma"

/-- The `height` derived-parameter expression lmfit installs for a
PseudoVoigt model (modelled from lmfit; its text is never interpreted by
the code under study). -/
def heightExprOf (pfx : String) : String :=
  "0.3183099*" ++ pfx ++ "amplitude/max(1e-15, " ++ pfx ++ "sigma)"

/-- `PseudoVoigtModel(prefix=pfx)`: the fresh model with the param hints
lmfit's constructor installs (modelled from lmfit). -/
def pseudoVoigtModel (pfx : String) : SModel :=
  { pfx := pfx
    hints := [
      ("sigma", { min := some 0 }),
      ("fraction", { value := some (1/2), min := some 0, max := some 1 }),
      ("fwhm", { expr := some (fwhmExprOf pfx) }),
      ("height", { expr := some (heightExprOf pfx) })] }

/-- The parameter names a PseudoVoigt model creates in `make_params`:
its function arguments plus the hinted derived parameters. -/
def basenames : List String :=
  ["amplitude", "center", "sigma", "fraction", "fwhm", "height"]

/-- Build one parameter from its hint entry, with lmfit defaults: `vary`
is true unless hinted otherwise, and a hint expression forces
`vary = false`. -/
def paramFromHint (h : Hint) : Param :=
  { value := h.value
    min := h.min
    max := h.max
    vary := match h.expr with | some _ => false | none => h.vary.getD true
    expr := h.expr }

/-- `Model.make_params()`: one parameter per basename, named with the
model's prefix, built from the hint dict (modelled from lmfit). -/
def make_params (m : SModel) : List (String × Param) :=
  basenames.map (fun b => (m.pfx ++ b, paramFromHint ((dictGet m.hints b).getD {})))

/-- `Parameter.set(...)`: every argument actually supplied updates the
matching attribute; an empty expression string clears the stored
expression (modelled from lmfit). -/
def paramSet (p : Param) (value : Option Rat) (vary : Option Bool)
    (min_ max_ : Option Rat) (expr : Option String) : Param :=
  let p1 := match value with | some v => { p with value := some v } | none => p
  let p2 := match vary with | some b => { p1 with vary := b } | none => p1
  let p3 := match min_ with | some v => { p2 with min := some v } | none => p2
  let p4 := match max_ with | some v => { p3 with max := some v } | none => p3
  match expr with
  | some e => if e = "" then { p4 with expr := none } else { p4 with expr := some e }
  | none => p4

/-- lmfit composite models: a single model, or the `+` of two models. -/
inductive CompositeModel where
  | single (m : SModel)
  | add (a b : CompositeModel)
deriving DecidableEq, Repr

/-- Composite model evaluation at one abscissa: addition of components
evaluates to the sum; what a single PseudoVoigt component evaluates to is
delegated to the external line-shape function `pv`, which receives the
component's prefix, the parameter set and the abscissa. -/
def evalModel (pv : String → List (String × Param) → Rat → Rat)
    (P : List (String × Param)) (x : Rat) : CompositeModel → Rat
  | CompositeModel.single m => pv m.pfx P x
  | CompositeModel.add a b => evalModel pv P x a + evalModel pv P x b

/-- The state of a `RegionFitModelIface` object: `_single_models`,
`_params` and `_region`. -/
structure FitState where
  single_models : List (String × SModel)
  params : List (String × Param)
  region : Region
deriving DecidableEq, Repr

/-- One `peak.set_params_from_model(...)` call recorded by `fit`: the
peak it was made on and the keyword values passed. -/
structure PeakCall where
  pk : Peak
  area : Option Rat
  fwhm : Option Rat
  center : Option Rat
deriving DecidableEq, Repr

/-- Return values of `get_constraint`: a number (possibly an infinite
bound), a string, or Python's `None` fall-through. -/
inductive CVal where
  | num (v : Option Rat)
  | str (s : String)
  | noneVal
deriving DecidableEq, Repr

/-- The model that `add_peak` registers for a PseudoVoigt peak:
`PseudoVoigtModel(prefix=...)` followed by the three `set_param_hint`
calls of `fitter.py` lines 43-46. -/
def addPeakModel (pfx : String) : SModel :=
  setParamHint
    (setParamHint
      (setParamHint (pseudoVoigtModel pfx)
        "sigma" { value := some 2, min := some (1/100000), max := some 5 })
      "amplitude" { value := some 2000, min := some 0 })
    "fraction" { vary := some false }

/-- `RegionFitModelIface.add_peak` (fitter.py lines 35-49). -/
def add_peak (s : FitState) (pk : Peak) : FitState × Option Err :=
  if pk.regionId ≠ s.region.id then
    (s, some Err.valueError)
  else if pk.model_name = "PseudoVoigt" then
    ({ s with single_models := dictSet s.single_models pk.pfx (addPeakModel pk.pfx) },
      none)
  else
    (s, some Err.notImplementedError)

/-- `RegionFitModelIface.remove_peak` (fitter.py lines 51-61): drop the
peak's model, then pop every parameter whose name contains the peak's
prefix as a substring. -/
def remove_peak (s : FitState) (pk : Peak) : FitState × Option Err :=
  if ¬ dictHasKey s.single_models pk.pfx then
    (s, some Err.attributeError)
  else
    let models := dictPopAll s.single_models pk.pfx
    let parsToDel := (s.params.map Prod.fst).filter (fun par => strContains par pk.pfx)
    let params := parsToDel.foldl dictPopAll s.params
    ({ s with single_models := models, params := params }, none)

/-- The three `set_param_hint` calls of `init_params` (fitter.py lines
74-77): store sigma = fwhm / 2, amplitude = area, center = center as
value hints on the peak's model. -/
def initHints (model : SModel) (a f c : Rat) : SModel :=
  let sigma := f / 2
  let model1 := setParamHint model "sigma" { value := some sigma }
  let model2 := setParamHint model1 "amplitude" { value := some a }
  setParamHint model2 "center" { value := some c }

/-- `RegionFitModelIface.init_params` (fitter.py lines 63-81).  The three
`Option Rat` arguments are the `area`, `fwhm` and `center` keyword
arguments; `none` marks an absent keyword. -/
def init_params (s : FitState) (pk : Peak) (area fwhm center : Option Rat) :
    FitState × Option Err :=
  let step := if ¬ dictHasKey s.params pk.pfx then add_peak s pk else (s, none)
  match step with
  | (s1, some e) => (s1, some e)
  | (s1, none) =>
    match area, fwhm, center with
    | none, _, _ => (s1, some Err.typeError)
    | some _, none, _ => (s1, some Err.typeError)
    | some _, some _, none => (s1, some Err.typeError)
    | some a, some f, some c =>
      match dictGet s1.single_models pk.pfx with
      | none => (s1, some Err.keyError)
      | some model =>
        if pk.model_name = "PseudoVoigt" then
          let model3 := initHints model a f c
          let ps := make_params model3
          ({ s1 with single_models := dictSet s1.single_models pk.pfx model3,
                     params := dictUpdate s1.params ps }, none)
        else
          (s1, some Err.notImplementedError)

/-- `RegionFitModelIface._total_model` (fitter.py lines 24-33): `None`
when no model is registered, otherwise the running `+` of the model list
starting from its head. -/
def totalModel (s : FitState) : Option CompositeModel :=
  match s.single_models.map (fun kv => CompositeModel.single kv.2) with
  | [] => none
  | m :: rest => some (rest.foldl CompositeModel.add m)

/-- The per-peak readback loop of `fit` (fitter.py lines 105-116): for
each peak of the region, look up its `amplitude`, `sigma` and `center`
parameters and call `set_params_from_model` with `area`, `fwhm = 2*sigma`
and `center`; non-PseudoVoigt peaks raise, missing parameters raise. -/
def fitLoop (P : List (String × Param)) : List Peak → List PeakCall × Option Err
  | [] => ([], none)
  | pk :: rest =>
    if pk.model_name = "PseudoVoigt" then
      match dictGet P (pk.pfx ++ "amplitude"), dictGet P (pk.pfx ++ "sigma"),
          dictGet P (pk.pfx ++ "center") with
      | some pa, some ps, some pc =>
        let call : PeakCall :=
          { pk := pk, area := pa.value,
            fwhm := ps.value.map (fun v => v * 2), center := pc.value }
        let r := fitLoop P rest
        (call :: r.1, r.2)
      | _, _, _ => ([], some Err.keyError)
    else
      ([], some Err.notImplementedError)

/-- `RegionFitModelIface.fit` (fitter.py lines 97-116).  The external
least-squares optimizer is the parameter `opt`: it receives the composite
model, the data `y = cps - background`, the current parameter set and the
energy axis, and returns the fitted parameter set (`result.params`).
`fit` stores the fitted parameters, then runs the readback loop; the
recorded `set_params_from_model` calls and the error, if any, are
returned beside the new state. -/
def fit (opt : CompositeModel → List Rat → List (String × Param) → List Rat → List (String × Param))
    (s : FitState) : FitState × List PeakCall × Option Err :=
  if s.single_models = [] then
    (s, [], none)
  else
    match totalModel s with
    | none => (s, [], none)
    | some tm =>
      let y := List.zipWith (fun a b => a - b) s.region.cps s.region.background
      let newParams := opt tm y s.params s.region.energy
      let r := fitLoop newParams s.region.peaks
      ({ s with params := newParams }, r.1, r.2)

/-- `RegionFitModelIface.get_cps` (fitter.py lines 129-137): zeros when
there is no model, otherwise the composite model evaluated over the
region's energy values. -/
def get_cps (pv : String → List (String × Param) → Rat → Rat) (s : FitState) : List Rat :=
  match totalModel s with
  | none => List.replicate s.region.energy.length 0
  | some m => s.region.energy.map (fun x => evalModel pv s.params x m)

/-- The `names` dict of `add_constraint`/`get_constraint` mapping peak
attributes to parameter basenames; `none` models the `KeyError` of a
missing dict key. -/
def pvNames (attr : String) : Option String :=
  if attr = "area" then some "amplitude"
  else if attr = "fwhm" then some "sigma"
  else if attr = "center" then some "center"
  else none

/-- Python `if x: x /= 2` on an optional float argument: only truthy
values (present and nonzero) get halved. -/
def halveTruthy : Option Rat → Option Rat
  | some v => if v = 0 then some 0 else some (v / 2)
  | none => none

/-- Python `if expr: expr += "/ 2"` on an optional string argument: only
truthy (present, non-empty) expressions get the suffix. -/
def appendHalf : Option String → Option String
  | some e => if e = "" then some e else some (e ++ "/ 2")
  | none => none

/-- `RegionFitModelIface.add_constraint` (fitter.py lines 140-166). -/
def add_constraint (s : FitState) (pk : Peak) (attr : String)
    (min_ max_ : Option Rat) (vary : Option Bool) (expr : Option String)
    (value : Option Rat) : FitState × Option Err :=
  if pk.model_name = "PseudoVoigt" then
    let min2 := if attr = "fwhm" then halveTruthy min_ else min_
    let max2 := if attr = "fwhm" then halveTruthy max_ else max_
    let value2 := if attr = "fwhm" then halveTruthy value else value
    let expr2 := if attr = "fwhm" then appendHalf expr else expr
    match pvNames attr with
    | none => (s, some Err.keyError)
    | some base =>
      let paramname := pk.pfx ++ base
      match dictGet s.params paramname with
      | none => (s, some Err.keyError)
      | some p =>
        let p1 := paramSet p value2 vary min2 max2 expr2
        ({ s with params := dictSet s.params paramname p1 }, none)
  else
    (s, some Err.notImplementedError)

/-- `RegionFitModelIface.get_constraint` (fitter.py lines 168-196). -/
def get_constraint (s : FitState) (pk : Peak) (attr argname : String) :
    Except Err CVal :=
  if pk.model_name = "PseudoVoigt" then
    match pvNames attr with
    | none => Except.error Err.keyError
    | some base =>
      let paramname := pk.pfx ++ base
      match dictGet s.params paramname with
      | none => Except.error Err.keyError
      | some p =>
        let min1 := if attr = "fwhm" then p.min.map (fun v => v * 2) else p.min
        let max1 := if attr = "fwhm" then p.max.map (fun v => v * 2) else p.max
        let expr1 :=
          if attr = "fwhm" then
            match p.expr with
            | some e =>
              if e = "" then some e
              else if strTakeRight e 3 = "/ 2" then some (strDropRight e 3) else some e
            | none => none
          else p.expr
        if argname = "min" then Except.ok (CVal.num min1)
        else if argname = "max" then Except.ok (CVal.num max1)
        else if argname = "expr" then
          match expr1 with
          | none => Except.ok (CVal.str "")
          | some e => Except.ok (CVal.str e)
        else Except.ok CVal.noneVal
  else
    Except.error Err.notImplementedError

/-- The call a successful `fit` readback makes for one peak, expressed
from the fitted parameter set. -/
def mkCall (P : List (String × Param)) (pk : Peak) : PeakCall :=
  { pk := pk
    area := (dictGet P (pk.pfx ++ "amplitude")).bind Param.value
    fwhm := ((dictGet P (pk.pfx ++ "sigma")).bind Param.value).map (fun v => v * 2)
    center := (dictGet P (pk.pfx ++ "center")).bind Param.value }

/-- First-hit choice on options: the left value when present, otherwise
the right one.  Used to state dict-update lookup facts. -/
def oFirst {α : Type} : Option α → Option α → Option α
  | some v, _ => some v
  | none, b => b

/- ### Concrete data used to instantiate the theorems -/

/-- A concrete PseudoVoigt peak of region 1. -/
def pkW1 : Peak := { ID := 1, regionId := 1, model_name := "PseudoVoigt", pfx := "p1_" }

/-- A concrete region holding `pkW1`. -/
def rgW1 : Region :=
  { id := 1, energy := [1, 2], cps := [5, 7], background := [1, 1], peaks := [pkW1] }

/-- A freshly constructed interface state for `rgW1`. -/
def stEmpty : FitState := { single_models := [], params := [], region := rgW1 }

/-- A concrete parameter set holding fitted values for `pkW1`. -/
def paramsW : List (String × Param) :=
  [("p1_amplitude", { value := some 10 }),
   ("p1_sigma", { value := some 3 }),
   ("p1_center", { value := some 50 })]

/-- A state with `pkW1` registered and its parameters present. -/
def stOne : FitState :=
  { single_models := [("p1_", addPeakModel "p1_")], params := paramsW, region := rgW1 }

/-- A second PseudoVoigt peak whose prefix `xp1_` contains `p1_` as a
substring. -/
def pkB5 : Peak := { ID := 2, regionId := 1, model_name := "PseudoVoigt", pfx := "xp1_" }

/-- A region holding the two peaks with overlapping prefixes. -/
def rg5 : Region :=
  { id := 1, energy := [], cps := [], background := [], peaks := [pkW1, pkB5] }

/-- A state with both overlapping-prefix peaks registered. -/
def st5 : FitState :=
  { single_models := [("p1_", addPeakModel "p1_"), ("xp1_", addPeakModel "xp1_")],
    params := [("p1_sigma", {}), ("xp1_sigma", {})], region := rg5 }

/-- A second PseudoVoigt peak whose prefix `q2_` does not overlap `p1_`. -/
def pkC2 : Peak := { ID := 3, regionId := 1, model_name := "PseudoVoigt", pfx := "q2_" }

/-- A region holding the two peaks with non-overlapping prefixes. -/
def rgTwo : Region :=
  { id := 1, energy := [], cps := [], background := [], peaks := [pkW1, pkC2] }

/-- A state with both non-overlapping-prefix peaks registered. -/
def stTwo : FitState :=
  { single_models := [("p1_", addPeakModel "p1_"), ("q2_", addPeakModel "q2_")],
    params := [("p1_sigma", {}), ("q2_sigma", {})], region := rgTwo }

/-- A non-PseudoVoigt peak that belongs to a different region than the
interface. -/
def pkBad : Peak := { ID := 9, regionId := 2, model_name := "Lorentzian", pfx := "q1_" }

/-- A non-PseudoVoigt peak belonging to region 1. -/
def pkLor : Peak := { ID := 4, regionId := 1, model_name := "Lorentzian", pfx := "L_" }

/- ### Helper lemmas about the dictionary and string embedding -/

theorem strMk_data (s : String) : String.mk s.data = s := by
  cases s
  rfl

theorem strData_append (s t : String) : (s ++ t).data = s.data ++ t.data := by
  cases s
  cases t
  rfl

theorem strAppend_left_cancel {p a b : String} (h : p ++ a = p ++ b) : a = b := by
  have hd : p.data ++ a.data = p.data ++ b.data := by
    rw [← strData_append, ← strData_append, h]
  have h2 := List.append_cancel_left hd
  calc a = String.mk a.data := (strMk_data a).symm
  _ = String.mk b.data := by rw [h2]
  _ = b := strMk_data b

theorem strAppend_ne (p : String) {a b : String} (h : a ≠ b) : p ++ a ≠ p ++ b :=
  fun hc => h (strAppend_left_cancel hc)

theorem strAppend_inj (p : String) : Function.Injective (fun t => p ++ t) :=
  fun _ _ h => strAppend_left_cancel h

theorem strAppend_half_ne_empty (e : String) : e ++ "/ 2" ≠ "" := by
  intro h
  have : (e ++ "/ 2").data = ("" : String).data := by rw [h]
  rw [strData_append] at this
  simp at this

theorem strTakeRight_append3 (e : String) : strTakeRight (e ++ "/ 2") 3 = "/ 2" := by
  unfold strTakeRight
  rw [strData_append]
  have hlen : (e.data ++ ("/ 2" : String).data).length - 3 = e.data.length := by
    simp
  rw [hlen, List.drop_left]

theorem strDropRight_append3 (e : String) : strDropRight (e ++ "/ 2") 3 = e := by
  unfold strDropRight
  rw [strData_append]
  have hlen : (e.data ++ ("/ 2" : String).data).length - 3 = e.data.length := by
    simp
  rw [hlen, List.take_left, strMk_data]

theorem dictGet_dictSet_self {α : Type} (d : List (String × α)) (k : String) (v : α) :
    dictGet (dictSet d k v) k = some v := by
  induction d with
  | nil => simp [dictSet, dictGet]
  | cons kv rest ih =>
    by_cases h : kv.1 = k
    · simp [dictSet, dictGet, h]
    · simp [dictSet, dictGet, h, ih]

theorem dictGet_dictSet_ne {α : Type} (d : List (String × α)) {k k2 : String} (v : α)
    (h : k2 ≠ k) : dictGet (dictSet d k v) k2 = dictGet d k2 := by
  induction d with
  | nil => simp [dictSet, dictGet, Ne.symm h]
  | cons kv rest ih =>
    by_cases hk : kv.1 = k
    · subst hk
      simp [dictSet, dictGet, Ne.symm h]
    · have hstep : dictSet (kv :: rest) k v = kv :: dictSet rest k v := by
        simp [dictSet, hk]
      rw [hstep]
      by_cases hk2 : kv.1 = k2
      · simp [dictGet, hk2]
      · simp [dictGet, hk2, ih]

theorem dictGet_eq_none_of_not_mem {α : Type} {d : List (String × α)} {k : String}
    (h : k ∉ d.map Prod.fst) : dictGet d k = none := by
  induction d with
  | nil => rfl
  | cons kv rest ih =>
    simp only [List.map_cons, List.mem_cons] at h
    push_neg at h
    have h1 : kv.1 ≠ k := fun hc => h.1 hc.symm
    simp [dictGet, h1, ih h.2]

theorem dictGet_dictUpdate {α : Type} (new : List (String × α))
    (hnd : (new.map Prod.fst).Nodup) (d : List (String × α)) (k : String) :
    dictGet (dictUpdate d new) k = oFirst (dictGet new k) (dictGet d k) := by
  induction new generalizing d with
  | nil => simp [dictUpdate, dictGet, oFirst]
  | cons kv rest ih =>
    simp only [List.map_cons, List.nodup_cons] at hnd
    have step : dictUpdate d (kv :: rest) = dictUpdate (dictSet d kv.1 kv.2) rest := rfl
    rw [step, ih hnd.2]
    by_cases hk : kv.1 = k
    · subst hk
      have hrest : dictGet rest kv.1 = none :=
        dictGet_eq_none_of_not_mem hnd.1
      simp [dictGet, hrest, oFirst, dictGet_dictSet_self]
    · have h2 : k ≠ kv.1 := fun hc => hk hc.symm
      simp [dictGet, hk, dictGet_dictSet_ne _ _ h2]

theorem mem_dictPopAll {α : Type} {d : List (String × α)} {k : String} {kv : String × α} :
    kv ∈ dictPopAll d k ↔ kv ∈ d ∧ kv.1 ≠ k := by
  simp [dictPopAll, List.mem_filter]

theorem mem_foldPopAll {α : Type} (ks : List String) (d : List (String × α))
    (kv : String × α) :
    kv ∈ ks.foldl dictPopAll d ↔ kv ∈ d ∧ ∀ k2 ∈ ks, kv.1 ≠ k2 := by
  induction ks generalizing d with
  | nil => simp
  | cons k rest ih =>
    have step : (k :: rest).foldl dictPopAll d = rest.foldl dictPopAll (dictPopAll d k) := rfl
    rw [step, ih, mem_dictPopAll]
    constructor
    · rintro ⟨⟨h1, h2⟩, h3⟩
      exact ⟨h1, by
        intro k2 hk2
        rcases List.mem_cons.mp hk2 with h | h
        · exact h ▸ h2
        · exact h3 k2 h⟩
    · rintro ⟨h1, h2⟩
      exact ⟨⟨h1, h2 k (List.mem_cons_self k rest)⟩,
        fun k2 hk2 => h2 k2 (List.mem_cons_of_mem k hk2)⟩

theorem dictGet_popAll_self {α : Type} (d : List (String × α)) (k : String) :
    dictGet (dictPopAll d k) k = none := by
  induction d with
  | nil => rfl
  | cons kv rest ih =>
    by_cases h : kv.1 = k
    · simpa [dictPopAll, h] using ih
    · simpa [dictPopAll, dictGet, h] using ih

theorem dictGet_popAll_ne {α : Type} (d : List (String × α)) {k k2 : String}
    (h : k2 ≠ k) : dictGet (dictPopAll d k) k2 = dictGet d k2 := by
  induction d with
  | nil => rfl
  | cons kv rest ih =>
    by_cases hk : kv.1 = k
    · have hne : kv.1 ≠ k2 := by
        rw [hk]
        exact Ne.symm h
      have hstep : dictPopAll (kv :: rest) k = dictPopAll rest k := by
        simp [dictPopAll, hk]
      rw [hstep, ih]
      simp [dictGet, hne]
    · have hstep : dictPopAll (kv :: rest) k = kv :: dictPopAll rest k := by
        simp [dictPopAll, hk]
      rw [hstep]
      by_cases hk2 : kv.1 = k2
      · simp [dictGet, hk2]
      · simp [dictGet, hk2, ih]

theorem dictSet_ne_nil {α : Type} (d : List (String × α)) (k : String) (v : α) :
    dictSet d k v ≠ [] := by
  cases d with
  | nil => simp [dictSet]
  | cons kv rest =>
    by_cases h : kv.1 = k
    · simp [dictSet, h]
    · simp [dictSet, h]

theorem evalModel_foldl (pv : String → List (String × Param) → Rat → Rat)
    (P : List (String × Param)) (x : Rat) (ms : List CompositeModel)
    (m : CompositeModel) :
    evalModel pv P x (ms.foldl CompositeModel.add m) =
      evalModel pv P x m + (ms.map (evalModel pv P x)).sum := by
  induction ms generalizing m with
  | nil => simp
  | cons m2 rest ih =>
    have step : (m2 :: rest).foldl CompositeModel.add m =
        rest.foldl CompositeModel.add (CompositeModel.add m m2) := rfl
    rw [step, ih]
    simp [evalModel]
    ring

theorem dictGet_map_append {α : Type} (p : String) (g : String → α) (l : List String)
    (b : String) (hb : b ∈ l) :
    dictGet (l.map (fun b2 => (p ++ b2, g b2))) (p ++ b) = some (g b) := by
  induction l with
  | nil => cases hb
  | cons b0 rest ih =>
    by_cases h0 : b0 = b
    · subst h0
      simp [dictGet]
    · have hne : p ++ b0 ≠ p ++ b := strAppend_ne p h0
      have hb2 : b ∈ rest := by
        rcases List.mem_cons.mp hb with h | h
        · exact absurd h.symm h0
        · exact h
      simp [dictGet, hne, ih hb2]

theorem map_fst_make_params (m : SModel) :
    (make_params m).map Prod.fst = basenames.map (fun b => m.pfx ++ b) := by
  simp [make_params]

theorem nodup_keys_make_params (m : SModel) :
    ((make_params m).map Prod.fst).Nodup := by
  rw [map_fst_make_params]
  exact List.Nodup.map (strAppend_inj m.pfx) (by decide)

theorem fitLoop_ok (P : List (String × Param)) :
    ∀ pks : List Peak,
    (∀ pk ∈ pks, pk.model_name = "PseudoVoigt") →
    (∀ pk ∈ pks,
      (dictGet P (pk.pfx ++ "amplitude")).isSome = true ∧
      (dictGet P (pk.pfx ++ "sigma")).isSome = true ∧
      (dictGet P (pk.pfx ++ "center")).isSome = true) →
    fitLoop P pks = (pks.map (mkCall P), none)
  | [], _, _ => rfl
  | pk :: rest, hpv, hex => by
    have hhd := hex pk (List.mem_cons_self pk rest)
    obtain ⟨pa, hpa⟩ := Option.isSome_iff_exists.mp hhd.1
    obtain ⟨ps, hps⟩ := Option.isSome_iff_exists.mp hhd.2.1
    obtain ⟨pc, hpc⟩ := Option.isSome_iff_exists.mp hhd.2.2
    have htail := fitLoop_ok P rest
      (fun q hq => hpv q (List.mem_cons_of_mem pk hq))
      (fun q hq => hex q (List.mem_cons_of_mem pk hq))
    simp [fitLoop, hpv pk (List.mem_cons_self pk rest), hpa, hps, hpc, htail,
      mkCall, hpa, hps, hpc]

theorem totalModel_exists (s : FitState) (h : s.single_models ≠ []) :
    ∃ tm, totalModel s = some tm := by
  cases hsm : s.single_models with
  | nil => exact absurd hsm h
  | cons kv rest =>
    refine ⟨(rest.map (fun kv => CompositeModel.single kv.2)).foldl
      CompositeModel.add (CompositeModel.single kv.2), ?_⟩
    simp [totalModel, hsm]

theorem dictGet_make_params (m : SModel) (p : String) (hp : m.pfx = p)
    (b : String) (hb : b ∈ basenames) :
    dictGet (make_params m) (p ++ b)
      = some (paramFromHint ((dictGet m.hints b).getD {})) := by
  subst hp
  exact dictGet_map_append m.pfx _ basenames b hb

theorem fit_spec
    (opt : CompositeModel → List Rat → List (String × Param) → List Rat →
      List (String × Param))
    (s : FitState) (tm : CompositeModel) (newP : List (String × Param))
    (htm : totalModel s = some tm)
    (hP : newP = opt tm (List.zipWith (fun u v => u - v) s.region.cps
      s.region.background) s.params s.region.energy)
    (hpv : ∀ pk ∈ s.region.peaks, pk.model_name = "PseudoVoigt")
    (hex : ∀ pk ∈ s.region.peaks,
      (dictGet newP (pk.pfx ++ "amplitude")).isSome = true ∧
      (dictGet newP (pk.pfx ++ "sigma")).isSome = true ∧
      (dictGet newP (pk.pfx ++ "center")).isSome = true) :
    fit opt s = ({ s with params := newP }, s.region.peaks.map (mkCall newP), none) := by
  have hne : ¬ (s.single_models = []) := by
    intro hnil
    simp [totalModel, hnil] at htm
  have hloop := fitLoop_ok newP s.region.peaks hpv hex
  simp only [fit, if_neg hne, htm]
  rw [← hP, hloop]

theorem fit_single_peak (Q : FitState) (pk : Peak) (a f c : Rat)
    (h1 : pk.model_name = "PseudoVoigt")
    (hq : Q.region.peaks = [pk])
    (hne : Q.single_models ≠ [])
    (hamp : (dictGet Q.params (pk.pfx ++ "amplitude")).bind Param.value = some a)
    (hsig : (dictGet Q.params (pk.pfx ++ "sigma")).bind Param.value = some (f / 2))
    (hcen : (dictGet Q.params (pk.pfx ++ "center")).bind Param.value = some c) :
    (fit (fun _ _ P _ => P) Q).2.1
      = [{ pk := pk, area := some a, fwhm := some f, center := some c }] ∧
    (fit (fun _ _ P _ => P) Q).2.2 = none := by
  obtain ⟨tm, htm⟩ := totalModel_exists Q hne
  have hA : (dictGet Q.params (pk.pfx ++ "amplitude")).isSome = true := by
    cases hg : dictGet Q.params (pk.pfx ++ "amplitude") with
    | none => rw [hg] at hamp; simp at hamp
    | some p => rfl
  have hS : (dictGet Q.params (pk.pfx ++ "sigma")).isSome = true := by
    cases hg : dictGet Q.params (pk.pfx ++ "sigma") with
    | none => rw [hg] at hsig; simp at hsig
    | some p => rfl
  have hC : (dictGet Q.params (pk.pfx ++ "center")).isSome = true := by
    cases hg : dictGet Q.params (pk.pfx ++ "center") with
    | none => rw [hg] at hcen; simp at hcen
    | some p => rfl
  have hpv2 : ∀ q ∈ Q.region.peaks, q.model_name = "PseudoVoigt" := by
    rw [hq]
    intro q hqq
    rw [List.mem_singleton] at hqq
    subst hqq
    exact h1
  have hex2 : ∀ q ∈ Q.region.peaks,
      (dictGet Q.params (q.pfx ++ "amplitude")).isSome = true ∧
      (dictGet Q.params (q.pfx ++ "sigma")).isSome = true ∧
      (dictGet Q.params (q.pfx ++ "center")).isSome = true := by
    rw [hq]
    intro q hqq
    rw [List.mem_singleton] at hqq
    subst hqq
    exact ⟨hA, hS, hC⟩
  have hfit := fit_spec (fun _ _ P _ => P) Q tm Q.params htm rfl hpv2 hex2
  rw [hfit]
  have hf2 : f / 2 * 2 = f := div_mul_cancel₀ f two_ne_zero
  refine ⟨?_, rfl⟩
  show Q.region.peaks.map (mkCall Q.params)
    = [{ pk := pk, area := some a, fwhm := some f, center := some c }]
  rw [hq]
  simp [mkCall, hamp, hsig, hcen, hf2]

/- ### Claim theorems -/

/-- C8: empty-model edge case: when no single models are registered,
`get_cps` returns a list of zeros of the energy array's length, and `fit`
returns immediately, for every optimizer, without modifying the state and
without making any `set_params_from_model` call. -/
theorem C8_empty_state (pv : String → List (String × Param) → Rat → Rat)
    (opt : CompositeModel → List Rat → List (String × Param) → List Rat →
      List (String × Param))
    (s : FitState) (h : s.single_models = []) :
    get_cps pv s = List.replicate s.region.energy.length 0 ∧
    fit opt s = (s, [], none) := by
  have htm : totalModel s = none := by
    simp [totalModel, h]
  constructor
  · simp [get_cps, htm]
  · simp [fit, h]

/-- C8 witness: the two conclusions at a concrete fresh state. -/
theorem C8_witness :
    get_cps (fun _ _ x => x) stEmpty = List.replicate stEmpty.region.energy.length 0 ∧
    fit (fun _ _ P _ => P) stEmpty = (stEmpty, [], none) :=
  C8_empty_state (fun _ _ x => x) (fun _ _ P _ => P) stEmpty (by decide)

/-- C4: `remove_peak` keeps the shared parameter set consistent with the
model set: when the peak's prefix is not among the registered single
models it raises `AttributeError` leaving the state unchanged; on success
the peak's model is gone and no parameter named with the removed peak's
prefix remains in the shared parameter set. -/
theorem C4_remove_peak_consistent (s : FitState) (pk : Peak) :
    (¬ dictHasKey s.single_models pk.pfx →
      remove_peak s pk = (s, some Err.attributeError)) ∧
    (dictHasKey s.single_models pk.pfx →
      (remove_peak s pk).2 = none ∧
      dictGet ((remove_peak s pk).1).single_models pk.pfx = none ∧
      ((remove_peak s pk).1).params.all
        (fun kv => !(pk.pfx.data.isPrefixOf kv.1.data)) = true) := by
  constructor
  · intro h
    simp [remove_peak, h]
  · intro h
    have hnn : ¬ ¬ dictHasKey s.single_models pk.pfx := not_not_intro h
    have hres : remove_peak s pk =
        ({ s with
            single_models := dictPopAll s.single_models pk.pfx,
            params := ((s.params.map Prod.fst).filter
              (fun par => strContains par pk.pfx)).foldl dictPopAll s.params }, none) := by
      simp [remove_peak, hnn]
    rw [hres]
    refine ⟨rfl, dictGet_popAll_self _ _, ?_⟩
    rw [List.all_eq_true]
    intro kv hkv
    rw [mem_foldPopAll] at hkv
    by_contra hb
    have hpre : pk.pfx.data.isPrefixOf kv.1.data = true := by
      simpa using hb
    have hinf : pk.pfx.data <:+: kv.1.data :=
      List.IsPrefix.isInfix (List.isPrefixOf_iff_prefix.mp hpre)
    have hcont : strContains kv.1 pk.pfx = true := by
      simp [strContains, hinf]
    have hmem : kv.1 ∈ (s.params.map Prod.fst).filter
        (fun par => strContains par pk.pfx) := by
      rw [List.mem_filter]
      exact ⟨List.mem_map_of_mem Prod.fst hkv.1, hcont⟩
    exact hkv.2 kv.1 hmem rfl

/-- C4 witness: the success case of `remove_peak` at a concrete state. -/
theorem C4_witness :
    (remove_peak stOne pkW1).2 = none ∧
    dictGet ((remove_peak stOne pkW1).1).single_models pkW1.pfx = none ∧
    ((remove_peak stOne pkW1).1).params.all
      (fun kv => !(pkW1.pfx.data.isPrefixOf kv.1.data)) = true :=
  (C4_remove_peak_consistent stOne pkW1).2 (by decide)

/-- C5 counterexample: the original claim fails.  Two distinct peaks with
distinct prefixes `p1_` and `xp1_`: removing the `p1_` peak also deletes
the other peak's parameter `xp1_sigma`, because the removal loop tests
substring containment of the removed prefix rather than name equality. -/
theorem C5_counterexample :
    pkW1.pfx ≠ pkB5.pfx ∧
    dictHasKey st5.params (pkB5.pfx ++ "sigma") ∧
    (remove_peak st5 pkW1).2 = none ∧
    ¬ dictHasKey ((remove_peak st5 pkW1).1).params (pkB5.pfx ++ "sigma") := by
  decide

/-- C5 (amended): `remove_peak` only affects the removed peak, provided
the removed peak's prefix does not occur as a substring of the other
peak's parameter names: the other peak's single model is untouched, and
any parameter entry whose name does not contain the removed prefix
survives in the shared parameter set. -/
theorem C5_remove_peak_frame (s : FitState) (pkA pkB : Peak)
    (kv : String × Param)
    (hne : pkB.pfx ≠ pkA.pfx)
    (hin : dictHasKey s.single_models pkA.pfx)
    (hkv : kv ∈ s.params)
    (hfree : strContains kv.1 pkA.pfx = false) :
    dictGet ((remove_peak s pkA).1).single_models pkB.pfx
      = dictGet s.single_models pkB.pfx ∧
    kv ∈ ((remove_peak s pkA).1).params := by
  have hnn : ¬ ¬ dictHasKey s.single_models pkA.pfx := not_not_intro hin
  have hres : remove_peak s pkA =
      ({ s with
          single_models := dictPopAll s.single_models pkA.pfx,
          params := ((s.params.map Prod.fst).filter
            (fun par => strContains par pkA.pfx)).foldl dictPopAll s.params }, none) := by
    simp [remove_peak, hnn]
  rw [hres]
  constructor
  · exact dictGet_popAll_ne _ hne
  · rw [mem_foldPopAll]
    refine ⟨hkv, ?_⟩
    intro k2 hk2 hcontra
    rw [List.mem_filter] at hk2
    rw [← hcontra] at hk2
    rw [hk2.2] at hfree
    cases hfree

/-- C5 witness: a concrete two-peak state with non-overlapping prefixes
where removing `p1_` leaves the `q2_` peak's model and parameter alone. -/
theorem C5_witness :
    dictGet ((remove_peak stTwo pkW1).1).single_models pkC2.pfx
      = dictGet stTwo.single_models pkC2.pfx ∧
    ("q2_sigma", ({} : Param)) ∈ ((remove_peak stTwo pkW1).1).params :=
  C5_remove_peak_frame stTwo pkW1 pkC2 ("q2_sigma", ({} : Param))
    (by decide) (by decide) (by decide) (by decide)

/-- C6: `add_peak` raises `ValueError` exactly when the peak's region is
not the interface's region, leaving the state unchanged in that case;
for a PseudoVoigt peak of the right region it registers under the peak's
prefix a model whose hints give sigma value 2 bounded to
[1/100000, 5], amplitude value 2000 with min 0, and fraction fixed. -/
theorem C6_add_peak_registration (s : FitState) (pk : Peak) :
    ((add_peak s pk).2 = some Err.valueError ↔ pk.regionId ≠ s.region.id) ∧
    (pk.regionId ≠ s.region.id → add_peak s pk = (s, some Err.valueError)) ∧
    (pk.regionId = s.region.id → pk.model_name = "PseudoVoigt" →
      (add_peak s pk).2 = none ∧
      dictGet ((add_peak s pk).1).single_models pk.pfx
        = some (addPeakModel pk.pfx) ∧
      dictGet (addPeakModel pk.pfx).hints "sigma" =
        some { value := some 2, min := some (1/100000), max := some 5,
               vary := none, expr := none } ∧
      dictGet (addPeakModel pk.pfx).hints "amplitude" =
        some { value := some 2000, min := some 0, max := none,
               vary := none, expr := none } ∧
      (dictGet (addPeakModel pk.pfx).hints "fraction").bind Hint.vary
        = some false) := by
  refine ⟨?_, ?_, ?_⟩
  · by_cases hr : pk.regionId = s.region.id
    · constructor
      · intro hc
        by_cases hm : pk.model_name = "PseudoVoigt"
        · simp [add_peak, hr, hm] at hc
        · simp [add_peak, hr, hm] at hc
      · intro hc
        exact absurd hr hc
    · simp [add_peak, hr]
  · intro hr
    simp [add_peak, hr]
  · intro hr hm
    refine ⟨by simp [add_peak, hr, hm], ?_, ?_, ?_, ?_⟩
    · simp [add_peak, hr, hm, dictGet_dictSet_self]
    · rfl
    · rfl
    · rfl

/-- C6 witness: registration of a concrete PseudoVoigt peak into a fresh
state, plus the error-iff at a mismatched-region input. -/
theorem C6_witness :
    ((add_peak stEmpty pkBad).2 = some Err.valueError ↔
      pkBad.regionId ≠ stEmpty.region.id) ∧
    ((add_peak stEmpty pkW1).2 = none ∧
      dictGet ((add_peak stEmpty pkW1).1).single_models pkW1.pfx
        = some (addPeakModel pkW1.pfx) ∧
      dictGet (addPeakModel pkW1.pfx).hints "sigma" =
        some { value := some 2, min := some (1/100000), max := some 5,
               vary := none, expr := none } ∧
      dictGet (addPeakModel pkW1.pfx).hints "amplitude" =
        some { value := some 2000, min := some 0, max := none,
               vary := none, expr := none } ∧
      (dictGet (addPeakModel pkW1.pfx).hints "fraction").bind Hint.vary
        = some false) :=
  ⟨(C6_add_peak_registration stEmpty pkBad).1,
    (C6_add_peak_registration stEmpty pkW1).2.2 (by decide) (by decide)⟩

/-- C9 counterexample: the original claim fails.  A non-PseudoVoigt peak
whose region does not match the interface makes `add_peak` raise
`ValueError`, not `NotImplementedError`, because the region check comes
first. -/
theorem C9_counterexample :
    pkBad.model_name ≠ "PseudoVoigt" ∧
    (add_peak stEmpty pkBad).2 = some Err.valueError ∧
    (add_peak stEmpty pkBad).2 ≠ some Err.notImplementedError := by
  decide

/-- C9 (amended): for every peak whose `model_name` is not `PseudoVoigt`,
`add_constraint` and `get_constraint` raise `NotImplementedError`
unconditionally, and `add_peak` and `init_params` raise it provided the
peak belongs to the interface's region (and, for `init_params`, no
parameter is named exactly the bare prefix, as in every reachable
state). -/
theorem C9_only_pseudovoigt (s : FitState) (pk : Peak)
    (h : pk.model_name ≠ "PseudoVoigt") :
    (pk.regionId = s.region.id →
      add_peak s pk = (s, some Err.notImplementedError)) ∧
    (pk.regionId = s.region.id → ¬ dictHasKey s.params pk.pfx →
      ∀ area fwhm center,
        init_params s pk area fwhm center = (s, some Err.notImplementedError)) ∧
    (∀ attr min_ max_ vary expr value,
      add_constraint s pk attr min_ max_ vary expr value
        = (s, some Err.notImplementedError)) ∧
    (∀ attr argname,
      get_constraint s pk attr argname = Except.error Err.notImplementedError) := by
  refine ⟨?_, ?_, ?_, ?_⟩
  · intro hr
    simp [add_peak, hr, h]
  · intro hr hnk
    intro area fwhm center
    have hadd : add_peak s pk = (s, some Err.notImplementedError) := by
      simp [add_peak, hr, h]
    simp [init_params, hnk, hadd]
  · intro attr min_ max_ vary expr value
    simp [add_constraint, h]
  · intro attr argname
    simp [get_constraint, h]

/-- C9 witness: the four amended conclusions at a concrete in-region
non-PseudoVoigt peak. -/
theorem C9_witness :
    add_peak stEmpty pkLor = (stEmpty, some Err.notImplementedError) ∧
    init_params stEmpty pkLor (some 1) (some 2) (some 3)
      = (stEmpty, some Err.notImplementedError) ∧
    add_constraint stEmpty pkLor "area" none none none none none
      = (stEmpty, some Err.notImplementedError) ∧
    get_constraint stEmpty pkLor "area" "min"
      = Except.error Err.notImplementedError :=
  ⟨(C9_only_pseudovoigt stEmpty pkLor (by decide)).1 (by decide),
    (C9_only_pseudovoigt stEmpty pkLor (by decide)).2.1 (by decide) (by decide)
      (some 1) (some 2) (some 3),
    (C9_only_pseudovoigt stEmpty pkLor (by decide)).2.2.1 "area" none none none none none,
    (C9_only_pseudovoigt stEmpty pkLor (by decide)).2.2.2 "area" "min"⟩

/-- C10: `init_params` raises `TypeError` whenever one of the keyword
arguments `area`, `fwhm`, `center` is missing, but not atomically: the
membership test compares the bare prefix against full parameter names, so
for a PseudoVoigt peak of the region the call first re-registers the peak
through `add_peak` — the single-model collection afterwards holds a fresh
default-hinted model under the peak's prefix — and only then validates
the keyword arguments (the parameter set itself is still unchanged). -/
theorem C10_init_params_not_atomic (s : FitState) (pk : Peak)
    (hpv : pk.model_name = "PseudoVoigt")
    (hr : pk.regionId = s.region.id)
    (hnk : ¬ dictHasKey s.params pk.pfx)
    (area fwhm center : Option Rat)
    (hmiss : area = none ∨ fwhm = none ∨ center = none) :
    (init_params s pk area fwhm center).2 = some Err.typeError ∧
    dictGet ((init_params s pk area fwhm center).1).single_models pk.pfx
      = some (addPeakModel pk.pfx) ∧
    ((init_params s pk area fwhm center).1).params = s.params := by
  have hadd : add_peak s pk =
      ({ s with single_models := dictSet s.single_models pk.pfx (addPeakModel pk.pfx) },
        none) := by
    simp [add_peak, hr, hpv]
  cases area with
  | none =>
    simp [init_params, hnk, hadd, dictGet_dictSet_self]
  | some a =>
    cases fwhm with
    | none =>
      simp [init_params, hnk, hadd, dictGet_dictSet_self]
    | some f =>
      cases center with
      | none =>
        simp [init_params, hnk, hadd, dictGet_dictSet_self]
      | some c =>
        rcases hmiss with hmi | hmi | hmi <;> cases hmi

/-- C10 witness: the missing-`area` call at a concrete fresh state has
already re-registered the peak's model when the `TypeError` is raised. -/
theorem C10_witness :
    (init_params stEmpty pkW1 none (some 3) (some 50)).2 = some Err.typeError ∧
    dictGet ((init_params stEmpty pkW1 none (some 3) (some 50)).1).single_models
      pkW1.pfx = some (addPeakModel pkW1.pfx) ∧
    ((init_params stEmpty pkW1 none (some 3) (some 50)).1).params = stEmpty.params :=
  C10_init_params_not_atomic stEmpty pkW1 (by decide) (by decide) (by decide)
    none (some 3) (some 50) (Or.inl rfl)

/-- C1: the aggregate model is the sum of all registered single-peak
models: `_total_model` is `None` exactly when no model is registered;
when it is a model, its evaluation at any parameter set and abscissa is
the sum of the evaluations of every model in `_single_models`; and
`get_cps` evaluates exactly this sum over the region's energy values. -/
theorem C1_total_model_is_sum (pv : String → List (String × Param) → Rat → Rat)
    (s : FitState) :
    (totalModel s = none ↔ s.single_models = []) ∧
    (∀ m, totalModel s = some m → ∀ P x,
      evalModel pv P x m
        = (s.single_models.map (fun kv => pv kv.2.pfx P x)).sum) ∧
    (s.single_models ≠ [] →
      get_cps pv s = s.region.energy.map
        (fun x => (s.single_models.map (fun kv => pv kv.2.pfx s.params x)).sum)) := by
  have hsum : ∀ m, totalModel s = some m → ∀ P x,
      evalModel pv P x m = (s.single_models.map (fun kv => pv kv.2.pfx P x)).sum := by
    intro m hm P x
    cases h : s.single_models with
    | nil =>
      simp [totalModel, h] at hm
    | cons kv rest =>
      simp only [totalModel, h, List.map_cons] at hm
      have hm2 : (List.map (fun kv => CompositeModel.single kv.2) rest).foldl
          CompositeModel.add (CompositeModel.single kv.2) = m := by
        simpa using hm
      rw [← hm2, evalModel_foldl]
      have hcomp : (evalModel pv P x ∘ fun kv : String × SModel =>
          CompositeModel.single kv.2) = fun kv : String × SModel => pv kv.2.pfx P x := rfl
      simp [evalModel, List.map_map, h, hcomp]
  refine ⟨?_, hsum, ?_⟩
  · cases h : s.single_models with
    | nil => simp [totalModel, h]
    | cons kv rest => simp [totalModel, h]
  · intro hne
    cases h : s.single_models with
    | nil => exact absurd h hne
    | cons kv rest =>
      have htm : totalModel s = some ((List.map (fun kv => CompositeModel.single kv.2)
          rest).foldl CompositeModel.add (CompositeModel.single kv.2)) := by
        simp [totalModel, h]
      have hfun : (fun x => evalModel pv s.params x
          ((List.map (fun kv => CompositeModel.single kv.2) rest).foldl
            CompositeModel.add (CompositeModel.single kv.2)))
          = fun x => (s.single_models.map (fun kv => pv kv.2.pfx s.params x)).sum :=
        funext fun x => hsum _ htm s.params x
      simp only [get_cps, htm, hfun]
      rw [h]

/-- C1 witness: the three conclusions at a concrete one-model state and a
concrete external line shape. -/
theorem C1_witness :
    (totalModel stOne = none ↔ stOne.single_models = []) ∧
    evalModel (fun _ _ x => x) stOne.params 3
        (CompositeModel.single (addPeakModel "p1_"))
      = (stOne.single_models.map (fun kv => (fun _ _ x => x) kv.2.pfx stOne.params 3)).sum ∧
    get_cps (fun _ _ x => x) stOne = stOne.region.energy.map
      (fun x => (stOne.single_models.map
        (fun kv => (fun _ _ x2 => x2) kv.2.pfx stOne.params x)).sum) :=
  ⟨(C1_total_model_is_sum (fun _ _ x => x) stOne).1,
   (C1_total_model_is_sum (fun _ _ x => x) stOne).2.1 _ rfl stOne.params 3,
   (C1_total_model_is_sum (fun _ _ x => x) stOne).2.2 (by decide)⟩

/-- C7: after a successful fit, the optimizer's resulting parameters
become the shared parameter set, and every PseudoVoigt peak of the region
receives `set_params_from_model` with area equal to its amplitude
parameter, fwhm equal to twice its sigma parameter, and center equal to
its center parameter, all read from the fitted parameter set. -/
theorem C7_fit_stores_and_reports
    (opt : CompositeModel → List Rat → List (String × Param) → List Rat →
      List (String × Param))
    (s : FitState) (tm : CompositeModel) (newP : List (String × Param))
    (htm : totalModel s = some tm)
    (hP : newP = opt tm (List.zipWith (fun u v => u - v) s.region.cps
      s.region.background) s.params s.region.energy)
    (hpv : ∀ pk ∈ s.region.peaks, pk.model_name = "PseudoVoigt")
    (hex : ∀ pk ∈ s.region.peaks,
      (dictGet newP (pk.pfx ++ "amplitude")).isSome = true ∧
      (dictGet newP (pk.pfx ++ "sigma")).isSome = true ∧
      (dictGet newP (pk.pfx ++ "center")).isSome = true) :
    fit opt s = ({ s with params := newP }, s.region.peaks.map (mkCall newP), none) := by
  have hne : ¬ (s.single_models = []) := by
    intro hnil
    simp [totalModel, hnil] at htm
  have hloop := fitLoop_ok newP s.region.peaks hpv hex
  simp only [fit, if_neg hne, htm]
  rw [← hP, hloop]

/-- C7 witness: the conclusion at a concrete one-peak state with the
identity optimizer. -/
theorem C7_witness :
    fit (fun _ _ P _ => P) stOne
      = ({ stOne with params := stOne.params },
          stOne.region.peaks.map (mkCall stOne.params), none) :=
  C7_fit_stores_and_reports (fun _ _ P _ => P) stOne
    (CompositeModel.single (addPeakModel "p1_")) stOne.params rfl rfl
    (by decide) (by decide)

/-- C2: physical quantities map to model parameters and back unchanged:
for a PseudoVoigt peak of the region, `init_params` stores the sigma
parameter as fwhm / 2, area as the amplitude parameter and center as the
center parameter, and a `fit` whose optimizer returns the parameters
unchanged reports back to the peak exactly the (area, fwhm, center)
triple originally supplied. -/
theorem C2_physical_roundtrip (s : FitState) (pk : Peak) (a f c : Rat)
    (h1 : pk.model_name = "PseudoVoigt")
    (h2 : pk.regionId = s.region.id)
    (h3 : ¬ dictHasKey s.params pk.pfx)
    (h4 : s.region.peaks = [pk]) :
    (init_params s pk (some a) (some f) (some c)).2 = none ∧
    (dictGet ((init_params s pk (some a) (some f) (some c)).1).params
      (pk.pfx ++ "sigma")).bind Param.value = some (f / 2) ∧
    (dictGet ((init_params s pk (some a) (some f) (some c)).1).params
      (pk.pfx ++ "amplitude")).bind Param.value = some a ∧
    (dictGet ((init_params s pk (some a) (some f) (some c)).1).params
      (pk.pfx ++ "center")).bind Param.value = some c ∧
    (fit (fun _ _ P _ => P) ((init_params s pk (some a) (some f) (some c)).1)).2.1
      = [{ pk := pk, area := some a, fwhm := some f, center := some c }] ∧
    (fit (fun _ _ P _ => P) ((init_params s pk (some a) (some f) (some c)).1)).2.2
      = none := by
  have hadd : add_peak s pk =
      ({ s with single_models := dictSet s.single_models pk.pfx (addPeakModel pk.pfx) },
        none) := by
    simp [add_peak, h2, h1]
  have hres : init_params s pk (some a) (some f) (some c) =
      ({ s with
          single_models := dictSet (dictSet s.single_models pk.pfx (addPeakModel pk.pfx))
            pk.pfx (initHints (addPeakModel pk.pfx) a f c),
          params := dictUpdate s.params
            (make_params (initHints (addPeakModel pk.pfx) a f c)) }, none) := by
    simp [init_params, h3, hadd, dictGet_dictSet_self, h1]
  have hres1 : (init_params s pk (some a) (some f) (some c)).1 =
      { s with
          single_models := dictSet (dictSet s.single_models pk.pfx (addPeakModel pk.pfx))
            pk.pfx (initHints (addPeakModel pk.pfx) a f c),
          params := dictUpdate s.params
            (make_params (initHints (addPeakModel pk.pfx) a f c)) } := by
    rw [hres]
  have hres2 : (init_params s pk (some a) (some f) (some c)).2 = none := by
    rw [hres]
  have hup : ∀ b ∈ basenames,
      dictGet (dictUpdate s.params (make_params (initHints (addPeakModel pk.pfx) a f c)))
          (pk.pfx ++ b)
        = some (paramFromHint
            ((dictGet (initHints (addPeakModel pk.pfx) a f c).hints b).getD {})) := by
    intro b hb
    rw [dictGet_dictUpdate _ (nodup_keys_make_params _) s.params,
      dictGet_make_params _ pk.pfx rfl b hb]
    rfl
  have hvsig : paramFromHint
      ((dictGet (initHints (addPeakModel pk.pfx) a f c).hints "sigma").getD {})
      = { value := some (f / 2), min := some (1/100000), max := some 5,
          vary := true, expr := none } := rfl
  have hvamp : paramFromHint
      ((dictGet (initHints (addPeakModel pk.pfx) a f c).hints "amplitude").getD {})
      = { value := some a, min := some 0, max := none,
          vary := true, expr := none } := rfl
  have hvcen : paramFromHint
      ((dictGet (initHints (addPeakModel pk.pfx) a f c).hints "center").getD {})
      = { value := some c, min := none, max := none,
          vary := true, expr := none } := rfl
  have hksig : (dictGet (dictUpdate s.params
      (make_params (initHints (addPeakModel pk.pfx) a f c))) (pk.pfx ++ "sigma")).bind
        Param.value = some (f / 2) := by
    rw [hup "sigma" (by decide), hvsig]
    rfl
  have hkamp : (dictGet (dictUpdate s.params
      (make_params (initHints (addPeakModel pk.pfx) a f c))) (pk.pfx ++ "amplitude")).bind
        Param.value = some a := by
    rw [hup "amplitude" (by decide), hvamp]
    rfl
  have hkcen : (dictGet (dictUpdate s.params
      (make_params (initHints (addPeakModel pk.pfx) a f c))) (pk.pfx ++ "center")).bind
        Param.value = some c := by
    rw [hup "center" (by decide), hvcen]
    rfl
  have hfits := fit_single_peak
    { s with
        single_models := dictSet (dictSet s.single_models pk.pfx (addPeakModel pk.pfx))
          pk.pfx (initHints (addPeakModel pk.pfx) a f c),
        params := dictUpdate s.params
          (make_params (initHints (addPeakModel pk.pfx) a f c)) }
    pk a f c h1 h4 (dictSet_ne_nil _ _ _) hkamp hksig hkcen
  refine ⟨hres2, ?_, ?_, ?_, ?_, ?_⟩
  · rw [hres1]
    exact hksig
  · rw [hres1]
    exact hkamp
  · rw [hres1]
    exact hkcen
  · rw [hres1]
    exact hfits.1
  · rw [hres1]
    exact hfits.2

/-- C2 witness: the round trip at a concrete fresh state with
(area, fwhm, center) = (7, 3, 50). -/
theorem C2_witness :
    (init_params stEmpty pkW1 (some 7) (some 3) (some 50)).2 = none ∧
    (dictGet ((init_params stEmpty pkW1 (some 7) (some 3) (some 50)).1).params
      (pkW1.pfx ++ "sigma")).bind Param.value = some (3 / 2) ∧
    (dictGet ((init_params stEmpty pkW1 (some 7) (some 3) (some 50)).1).params
      (pkW1.pfx ++ "amplitude")).bind Param.value = some 7 ∧
    (dictGet ((init_params stEmpty pkW1 (some 7) (some 3) (some 50)).1).params
      (pkW1.pfx ++ "center")).bind Param.value = some 50 ∧
    (fit (fun _ _ P _ => P)
      ((init_params stEmpty pkW1 (some 7) (some 3) (some 50)).1)).2.1
      = [{ pk := pkW1, area := some 7, fwhm := some 3, center := some 50 }] ∧
    (fit (fun _ _ P _ => P)
      ((init_params stEmpty pkW1 (some 7) (some 3) (some 50)).1)).2.2 = none :=
  C2_physical_roundtrip stEmpty pkW1 7 3 50 (by decide) (by decide) (by decide)
    (by decide)

/-- C3: constraint apply/query round-trips: for a PseudoVoigt peak whose
parameters exist, for each attr in area/fwhm/center, adding a constraint
with a positive min (resp. positive max, non-empty expr) and then
querying the same attr and argname returns the value originally supplied
— for fwhm the halving on set and doubling on get, and the appended and
stripped "/ 2" expression suffix, cancel exactly. -/
theorem C3_constraint_roundtrip (s : FitState) (pk : Peak) (attr : String)
    (hattr : attr = "area" ∨ attr = "fwhm" ∨ attr = "center")
    (hpv : pk.model_name = "PseudoVoigt")
    (v : Rat) (hv : 0 < v) (e : String) (he : e ≠ "")
    (hA : (dictGet s.params (pk.pfx ++ "amplitude")).isSome = true)
    (hS : (dictGet s.params (pk.pfx ++ "sigma")).isSome = true)
    (hC : (dictGet s.params (pk.pfx ++ "center")).isSome = true) :
    get_constraint (add_constraint s pk attr (some v) none none none none).1
      pk attr "min" = Except.ok (CVal.num (some v)) ∧
    get_constraint (add_constraint s pk attr none (some v) none none none).1
      pk attr "max" = Except.ok (CVal.num (some v)) ∧
    get_constraint (add_constraint s pk attr none none none (some e) none).1
      pk attr "expr" = Except.ok (CVal.str e) := by
  have hv0 : v ≠ 0 := hv.ne'
  have hv2 : v / 2 * 2 = v := div_mul_cancel₀ v two_ne_zero
  rcases hattr with h | h | h
  · subst h
    obtain ⟨p, hp⟩ := Option.isSome_iff_exists.mp hA
    refine ⟨?_, ?_, ?_⟩
    · simp [add_constraint, get_constraint, hpv, pvNames, hp, paramSet,
        dictGet_dictSet_self, halveTruthy, appendHalf]
    · simp [add_constraint, get_constraint, hpv, pvNames, hp, paramSet,
        dictGet_dictSet_self, halveTruthy, appendHalf]
    · simp [add_constraint, get_constraint, hpv, pvNames, hp, paramSet,
        dictGet_dictSet_self, halveTruthy, appendHalf, he]
  · subst h
    obtain ⟨p, hp⟩ := Option.isSome_iff_exists.mp hS
    refine ⟨?_, ?_, ?_⟩
    · simp [add_constraint, get_constraint, hpv, pvNames, hp, paramSet,
        dictGet_dictSet_self, halveTruthy, appendHalf, hv0, hv2]
    · simp [add_constraint, get_constraint, hpv, pvNames, hp, paramSet,
        dictGet_dictSet_self, halveTruthy, appendHalf, hv0, hv2]
    · simp [add_constraint, get_constraint, hpv, pvNames, hp, paramSet,
        dictGet_dictSet_self, halveTruthy, appendHalf, he,
        strAppend_half_ne_empty e, strTakeRight_append3, strDropRight_append3]
  · subst h
    obtain ⟨p, hp⟩ := Option.isSome_iff_exists.mp hC
    refine ⟨?_, ?_, ?_⟩
    · simp [add_constraint, get_constraint, hpv, pvNames, hp, paramSet,
        dictGet_dictSet_self, halveTruthy, appendHalf]
    · simp [add_constraint, get_constraint, hpv, pvNames, hp, paramSet,
        dictGet_dictSet_self, halveTruthy, appendHalf]
    · simp [add_constraint, get_constraint, hpv, pvNames, hp, paramSet,
        dictGet_dictSet_self, halveTruthy, appendHalf, he]

/-- C3 witness: the three round trips for the fwhm attribute at a
concrete state, with min = max = 4 and expr = "p2_fwhm". -/
theorem C3_witness :
    get_constraint (add_constraint stOne pkW1 "fwhm" (some 4) none none none none).1
      pkW1 "fwhm" "min" = Except.ok (CVal.num (some 4)) ∧
    get_constraint (add_constraint stOne pkW1 "fwhm" none (some 4) none none none).1
      pkW1 "fwhm" "max" = Except.ok (CVal.num (some 4)) ∧
    get_constraint (add_constraint stOne pkW1 "fwhm" none none none
      (some "p2_fwhm") none).1 pkW1 "fwhm" "expr" = Except.ok (CVal.str "p2_fwhm") :=
  C3_constraint_roundtrip stOne pkW1 "fwhm" (Or.inr (Or.inl rfl)) (by decide)
    4 (by decide) "p2_fwhm" (by decide) (by decide) (by decide) (by decide)
